import Mathlib

/-
Verification of the client-side router in `packages/router/src/service.rs`.

The router state is embedded shallowly: route and path strings become lists
of characters, the registry (`slots: Rc<RefCell<Vec<(ScopeId, String)>>>`)
becomes a list of pairs, the shared `root_found: Rc<Cell<bool>>` flag becomes
a boolean field, and the current browser path (read from `history` on each
query) becomes a state field that is constant between navigation events.
Stateful methods are functions from state to (result, state).
-/

namespace RouterSpec

/-- Opaque, comparable scope identifier (`dioxus_core::ScopeId`). -/
abbrev ScopeId := Nat

/-- Route-pattern and path strings, modelled as lists of characters. -/
abbrev RStr := List Char

/-- Rust `str::trim_end_matches('/')`: remove every trailing `'/'` character. -/
def trim_end_slashes (s : RStr) : RStr :=
  (s.reverse.dropWhile (fun c => c == '/')).reverse

/-- Rust `fn clean_route(route: String) -> String` (service.rs:127-132): the root
route `"/"` is returned unchanged, any other route has its trailing `'/'`
characters stripped. -/
def clean_route (route : RStr) : RStr :=
  if route = ['/'] then route else trim_end_slashes route

/-- Rust `fn clean_path(path: &str) -> &str` (service.rs:134-139): the root path
`"/"` is returned unchanged, any other path has its trailing `'/'`
characters stripped. -/
def clean_path (path : RStr) : RStr :=
  if path = ['/'] then path else trim_end_slashes path

/-- The segment loop of `route_matches_path` (service.rs:156-175): a route
piece starting with `':'` is accepted against any path piece (`continue`);
otherwise the path piece must equal the route piece exactly. -/
def pieces_match : List RStr → List RStr → Bool
  | [], [] => true
  | r :: rs, p :: ps => (r.head? == some ':' || r == p) && pieces_match rs ps
  | _, _ => false

/-- Rust `fn route_matches_path(route: &str, path: &str) -> bool`
(service.rs:141-178): split the route and the cleaned path on `'/'`; differing
piece counts never match; otherwise compare pieces pairwise. -/
def route_matches_path (route path : RStr) : Bool :=
  if (route.splitOn '/').length ≠ ((clean_path path).splitOn '/').length then false
  else pieces_match (route.splitOn '/') ((clean_path path).splitOn '/')

/-- The router state visible to the claims: the ordered registry `slots`,
the shared `root_found` cell, and the current history path. -/
structure RouterState where
  slots : List (ScopeId × RStr)
  root_found : Bool
  path : RStr
deriving DecidableEq, Repr

/-- Lookup `roots.iter().find(|(id, route)| id == &scope)` (service.rs:93): the first
registry entry, in insertion order, whose scope id equals the query. -/
def find_slot (slots : List (ScopeId × RStr)) (scope : ScopeId) : Option (ScopeId × RStr) :=
  slots.find? (fun e => e.1 == scope)

/-- Method `RouterService::register_total_route` (service.rs:74-78): clean the route
and push `(scope, clean)` at the end of `slots`; the `fallback` argument is
never read. -/
def register_total_route (st : RouterState) (route : RStr) (scope : ScopeId)
    (fallback : Bool) : RouterState :=
  { st with slots := st.slots ++ [(scope, clean_route route)] }

/-- Method `RouterService::should_render` (service.rs:80-120). Returns the boolean
answer and the updated state: an already-set `root_found` short-circuits to
`false`; otherwise the scope's first registered entry is looked up and wins
(setting `root_found`) when its route matches the current path or is the
empty string. -/
def should_render (st : RouterState) (scope : ScopeId) : Bool × RouterState :=
  if st.root_found then (false, st)
  else
    match find_slot st.slots scope with
    | some r =>
        if route_matches_path r.2 st.path then (true, { st with root_found := true })
        else if r.2 = [] then (true, { st with root_found := true })
        else (false, st)
    | none => (false, st)

/-- A sequence of `should_render` queries threaded through the state, listing
each query's answer. -/
def run_queries : RouterState → List ScopeId → List Bool × RouterState
  | st, [] => ([], st)
  | st, q :: qs =>
    let r := should_render st q
    let rest := run_queries r.2 qs
    (r.1 :: rest.1, rest.2)

/-- Whether a `should_render` query for `scope` would claim the cycle when the
`root_found` flag is clear: the scope's first registered entry matches the
current path or is the empty fallback pattern. -/
def claims_cycle (slots : List (ScopeId × RStr)) (path : RStr) (scope : ScopeId) : Bool :=
  match find_slot slots scope with
  | some r => route_matches_path r.2 path || r.2 == ([] : RStr)
  | none => false

/-- Observable actions of the `history.listen` closure (service.rs:45-52). -/
inductive RouterEvent where
  | setRootFound : Bool → RouterEvent
  | regen : ScopeId → RouterEvent
deriving DecidableEq, Repr

/-- The `history.listen` closure (service.rs:45-52) as its event trace: first
`_root_found.set(false)`, then `regen(*slot)` for each registry entry,
iterating `slots` in reverse. -/
def listener_events (slots : List (ScopeId × RStr)) : List RouterEvent :=
  RouterEvent.setRootFound false :: slots.reverse.map (fun e => RouterEvent.regen e.1)

/-- Effect of one listener event on the router state: `setRootFound` writes
the cell; `regen` invokes the external callback and leaves the router state
unchanged. -/
def apply_event : RouterState → RouterEvent → RouterState
  | st, RouterEvent.setRootFound b => { st with root_found := b }
  | st, RouterEvent.regen _ => st

/-- Effect of a listener event trace on the router state. -/
def apply_events (st : RouterState) (evs : List RouterEvent) : RouterState :=
  evs.foldl apply_event st

/-- The matcher as claim C4 words it: with equal segment counts, a pattern
segment starting with `':'` matches exactly the non-empty path segments,
while any other segment must be exactly equal. Stated for comparison with
`route_matches_path`, which is translated from the source. -/
def claimC4_pieces_match : List RStr → List RStr → Bool
  | [], [] => true
  | r :: rs, p :: ps =>
      (if r.head? == some ':' then p != ([] : RStr) else r == p)
        && claimC4_pieces_match rs ps
  | _, _ => false

/-- The whole-route matcher induced by claim C4's per-segment wording. -/
def claimC4_matches (route path : RStr) : Bool :=
  if (route.splitOn '/').length ≠ ((clean_path path).splitOn '/').length then false
  else claimC4_pieces_match (route.splitOn '/') ((clean_path path).splitOn '/')

/-! ### Matcher lemmas -/

theorem trim_end_slashes_append_slash (s : RStr) :
    trim_end_slashes (s ++ ['/']) = trim_end_slashes s := by
  simp [trim_end_slashes, List.dropWhile_cons]

theorem clean_path_append_slash (s : RStr) (h0 : s ≠ []) (h1 : s ≠ ['/']) :
    clean_path (s ++ ['/']) = clean_path s := by
  have h2 : s ++ ['/'] ≠ ['/'] := by
    intro h
    rcases s with _ | ⟨a, t⟩
    · exact h0 rfl
    · have := congrArg List.length h
      simp at this
  rw [clean_path, clean_path, if_neg h2, if_neg h1, trim_end_slashes_append_slash]

theorem route_matches_path_append_slash (r s : RStr) (h0 : s ≠ []) (h1 : s ≠ ['/']) :
    route_matches_path r (s ++ ['/']) = route_matches_path r s := by
  rw [route_matches_path, route_matches_path, clean_path_append_slash s h0 h1]

theorem pieces_match_iff (rs : List RStr) : ∀ ps : List RStr, rs.length = ps.length →
    (pieces_match rs ps = true ↔
      ∀ pr ∈ rs.zip ps, pr.1.head? = some ':' ∨ pr.1 = pr.2) := by
  induction rs with
  | nil =>
    intro ps h
    cases ps with
    | nil => simp [pieces_match]
    | cons p ps => simp at h
  | cons r rs ih =>
    intro ps h
    cases ps with
    | nil => simp at h
    | cons p ps =>
      simp only [List.length_cons, Nat.succ.injEq] at h
      simp only [pieces_match, Bool.and_eq_true, Bool.or_eq_true, beq_iff_eq,
        List.zip_cons_cons, List.mem_cons, forall_eq_or_imp]
      rw [ih ps h]

/-! ### Claim theorems: the route matcher (C4, C5, C6) -/

/-- C4, counterexample: the source matcher accepts a `:`-parameter segment
against an EMPTY path segment. With pattern `/a/:x/b` and path `/a//b` the
segment counts agree (4 = 4), every literal segment matches exactly, and the
path segment paired with `:x` is empty, yet `route_matches_path` returns
`true`; the claim's per-segment rule (`claimC4_matches`) returns `false`. -/
theorem claimC4_counterexample :
    route_matches_path "/a/:x/b".toList "/a//b".toList = true ∧
    claimC4_matches "/a/:x/b".toList "/a//b".toList = false ∧
    ("/a/:x/b".toList.splitOn '/').length
      = ((clean_path "/a//b".toList).splitOn '/').length := by
  decide

/-- C4 (amended): for every pattern and path of equal segment count, a pattern
segment starting with `':'` matches ANY corresponding path segment (an empty
path segment included), while every other pattern segment must equal the
corresponding path segment exactly; `matches("/user/:id", "/user/42")` is
true and `matches("/user/:id", "/user/")` is false (the latter because the
trailing slash is stripped, leaving a segment-count mismatch). -/
theorem claimC4_amended :
    (∀ route path : RStr,
      (route.splitOn '/').length = ((clean_path path).splitOn '/').length →
      (route_matches_path route path = true ↔
        ∀ pr ∈ (route.splitOn '/').zip ((clean_path path).splitOn '/'),
          pr.1.head? = some ':' ∨ pr.1 = pr.2)) ∧
    route_matches_path "/user/:id".toList "/user/42".toList = true ∧
    route_matches_path "/user/:id".toList "/user/".toList = false := by
  refine ⟨?_, by decide, by decide⟩
  intro route path h
  rw [route_matches_path, if_neg (not_not_intro h)]
  exact pieces_match_iff _ _ h

/-- C4 witness: the amended per-segment characterisation applied at the
concrete pattern `/user/:id` and path `/user/42`. -/
theorem claimC4_witness :
    ("/user/:id".toList.splitOn '/').length
        = ((clean_path "/user/42".toList).splitOn '/').length ∧
    (route_matches_path "/user/:id".toList "/user/42".toList = true ↔
      ∀ pr ∈ ("/user/:id".toList.splitOn '/').zip
          ((clean_path "/user/42".toList).splitOn '/'),
        pr.1.head? = some ':' ∨ pr.1 = pr.2) :=
  ⟨by decide, claimC4_amended.1 "/user/:id".toList "/user/42".toList (by decide)⟩

/-- C5, counterexample: the claim asserts `matches("/a/b/", "/a/b")` is true,
but `route_matches_path` normalizes only the PATH, never the pattern: the
pattern `/a/b/` splits into 4 pieces against 3 for the path, so the source
matcher returns `false`. (Patterns are normalized at registration instead,
by `clean_route`.) -/
theorem claimC5_counterexample :
    route_matches_path "/a/b/".toList "/a/b".toList = false := by
  decide

/-- C5 (amended): the matcher strips trailing `'/'` from the PATH unless the
path is exactly `"/"`, so for every pattern `P` and every non-root, non-empty
path `X`, `matches(P, X ++ "/") = matches(P, X)`; a trailing slash on the
PATTERN is stripped at registration time instead: `clean_route("/a/b/") =
"/a/b"` and `matches("/a/b", "/a/b")` is true (while the bare matcher gives
`matches("/a/b/", "/a/b") = false`); `matches("/", "/")` is true, and the
root path is never stripped: `clean_path("/") = "/"`. -/
theorem claimC5_amended :
    (∀ P X : RStr, X ≠ [] → X ≠ ['/'] →
      route_matches_path P (X ++ ['/']) = route_matches_path P X) ∧
    clean_route "/a/b/".toList = "/a/b".toList ∧
    route_matches_path (clean_route "/a/b/".toList) "/a/b".toList = true ∧
    route_matches_path "/".toList "/".toList = true ∧
    clean_path "/".toList = "/".toList := by
  refine ⟨?_, by decide, by decide, by decide, by decide⟩
  intro P X h0 h1
  exact route_matches_path_append_slash P X h0 h1

/-- C5 witness: trailing-slash invariance of the matcher at the concrete
pattern `/a/b` and path `/a/b`. -/
theorem claimC5_witness :
    "/a/b".toList ≠ ([] : RStr) ∧ "/a/b".toList ≠ ['/'] ∧
    route_matches_path "/a/b".toList ("/a/b".toList ++ ['/'])
      = route_matches_path "/a/b".toList "/a/b".toList :=
  ⟨by decide, by decide,
    claimC5_amended.1 "/a/b".toList "/a/b".toList (by decide) (by decide)⟩

/-- C6: if splitting the pattern on `'/'` and splitting the normalized path
on `'/'` yield different piece counts, the matcher returns `false`; in
particular `matches("/a/b", "/a")` is false. -/
theorem claimC6 :
    (∀ route path : RStr,
      (route.splitOn '/').length ≠ ((clean_path path).splitOn '/').length →
      route_matches_path route path = false) ∧
    route_matches_path "/a/b".toList "/a".toList = false := by
  refine ⟨?_, by decide⟩
  intro route path h
  rw [route_matches_path, if_pos h]

/-- C6 witness: the segment-count rule applied at the concrete pattern
`/a/b` and path `/a`. -/
theorem claimC6_witness :
    ("/a/b".toList.splitOn '/').length
        ≠ (((clean_path "/a".toList)).splitOn '/').length ∧
    route_matches_path "/a/b".toList "/a".toList = false :=
  ⟨by decide, claimC6.1 "/a/b".toList "/a".toList (by decide)⟩

/-! ### Registry lemmas and claims (C8, C9) -/

theorem head?_dropWhile_slash :
    ∀ (l : RStr) (c : Char), (l.dropWhile (fun x => x == '/')).head? = some c → c ≠ '/' := by
  intro l
  induction l with
  | nil => intro c h; simp [List.dropWhile] at h
  | cons a t ih =>
    intro c h
    rw [List.dropWhile_cons] at h
    by_cases ha : a = '/'
    · rw [if_pos (by simp [ha])] at h
      exact ih c h
    · rw [if_neg (by simp [ha])] at h
      simp only [List.head?_cons, Option.some.injEq] at h
      rw [h] at ha
      exact ha

theorem trim_end_slashes_getLast (s : RStr) :
    (trim_end_slashes s).getLast? ≠ some '/' := by
  intro h
  rw [trim_end_slashes, List.getLast?_reverse] at h
  exact head?_dropWhile_slash s.reverse '/' h rfl

/-- C8: `register_total_route` appends `(scope, clean_route route)` at the end
of the ordered registry and touches nothing else (so re-registering a scope
id appends a further entry rather than replacing one); a cleaned pattern never
ends in `'/'` unless it is the root `"/"`; and the lookup `find_slot` used by
`should_render` returns the first entry in insertion order whose scope id
equals the query (every entry before it has a different scope id), or `none`
exactly when no entry carries that scope id. -/
theorem claimC8 :
    (∀ (st : RouterState) (route : RStr) (scope : ScopeId) (fb : Bool),
      (register_total_route st route scope fb).slots
          = st.slots ++ [(scope, clean_route route)] ∧
      (register_total_route st route scope fb).root_found = st.root_found ∧
      (register_total_route st route scope fb).path = st.path) ∧
    (∀ route : RStr, clean_route route = ['/'] ∨
      (clean_route route).getLast? ≠ some '/') ∧
    (∀ (slots : List (ScopeId × RStr)) (scope : ScopeId) (e : ScopeId × RStr),
      find_slot slots scope = some e →
        e.1 = scope ∧ ∃ pre post, slots = pre ++ e :: post ∧ ∀ x ∈ pre, x.1 ≠ scope) ∧
    (∀ (slots : List (ScopeId × RStr)) (scope : ScopeId),
      find_slot slots scope = none → ∀ x ∈ slots, x.1 ≠ scope) := by
  refine ⟨fun st route scope fb => ⟨rfl, rfl, rfl⟩, ?_, ?_, ?_⟩
  · intro route
    rw [clean_route]
    by_cases h : route = ['/']
    · exact Or.inl (by rw [if_pos h, h])
    · rw [if_neg h]
      exact Or.inr (trim_end_slashes_getLast route)
  · intro slots scope e h
    rw [find_slot, List.find?_eq_some] at h
    obtain ⟨h1, pre, post, heq, hall⟩ := h
    refine ⟨by simpa using h1, pre, post, heq, fun x hx => ?_⟩
    simpa using hall x hx
  · intro slots scope h x hx
    rw [find_slot, List.find?_eq_none] at h
    simpa using h x hx

/-- C8 witness: the lookup characterisation applied at a concrete registry
holding a duplicate scope id — `find_slot` returns the first matching entry. -/
theorem claimC8_witness :
    (1, "/a".toList).1 = 1 ∧
    ∃ pre post,
      [(2, "/b".toList), (1, "/a".toList), (1, "/c".toList)]
        = pre ++ (1, "/a".toList) :: post ∧
      ∀ x ∈ pre, x.1 ≠ 1 :=
  claimC8.2.2.1 [(2, "/b".toList), (1, "/a".toList), (1, "/c".toList)] 1
    (1, "/a".toList) (by decide)

/-- C9: the `fallback` flag passed to `register_total_route` is never read —
registering with `true` and with `false` produce identical states, and every
subsequent `should_render` query behaves identically; fallback status is
determined solely by the registered pattern being the empty string. -/
theorem claimC9 :
    ∀ (st : RouterState) (route : RStr) (scope : ScopeId),
      register_total_route st route scope true
          = register_total_route st route scope false ∧
      ∀ q : ScopeId,
        should_render (register_total_route st route scope true) q
          = should_render (register_total_route st route scope false) q :=
  fun st route scope => ⟨rfl, fun q => rfl⟩

/-! ### should_render lemmas and claims (C2, C7, C10) -/

theorem should_render_flag_true (st : RouterState) (s : ScopeId)
    (h : st.root_found = true) : should_render st s = (false, st) := by
  rw [should_render, if_pos h]

theorem should_render_eval (st : RouterState) (s : ScopeId)
    (h : st.root_found = false) :
    should_render st s
      = (claims_cycle st.slots st.path s,
         if claims_cycle st.slots st.path s
         then { st with root_found := true } else st) := by
  rw [should_render, claims_cycle, if_neg (by simp [h])]
  rcases hf : find_slot st.slots s with _ | r
  · simp
  · by_cases hm : route_matches_path r.2 st.path
    · simp [hm]
    · by_cases he : r.2 = ([] : RStr)
      · simp [hm, he]
      · simp [hm, he]

/-- C2: for a scope whose first registered entry has the empty-string pattern,
a `should_render` query answers `true` exactly when the `root_found` flag is
not yet set (and then sets it); when the flag is already set the query answers
`false`, and in every case the flag is set afterwards. -/
theorem claimC2 :
    ∀ (st : RouterState) (scope : ScopeId) (e : ScopeId × RStr),
      find_slot st.slots scope = some e → e.2 = [] →
      (should_render st scope).1 = !st.root_found ∧
      (should_render st scope).2.root_found = true ∧
      (st.root_found = false →
        (should_render st scope).2 = { st with root_found := true }) := by
  intro st scope e hfind hemp
  cases hrf : st.root_found with
  | true =>
    rw [should_render_flag_true st scope hrf]
    refine ⟨rfl, hrf, fun hc => ?_⟩
    exact absurd hc (by decide)
  | false =>
    rw [should_render_eval st scope hrf]
    have hc : claims_cycle st.slots st.path scope = true := by
      rw [claims_cycle, hfind]
      simp [hemp]
    rw [hc]
    exact ⟨rfl, rfl, fun _ => rfl⟩

/-- C2 witness: the fallback rule applied at a concrete one-entry registry
whose pattern is empty, first with the flag clear. -/
theorem claimC2_witness :
    (should_render (RouterState.mk [(3, [])] false ['/', 'z']) 3).1 = !false ∧
    (should_render (RouterState.mk [(3, [])] false ['/', 'z']) 3).2.root_found
        = true ∧
    (should_render (RouterState.mk [(3, [])] false ['/', 'z']) 3).2
        = RouterState.mk [(3, [])] true ['/', 'z'] := by
  have h := claimC2 (RouterState.mk [(3, [])] false ['/', 'z']) 3 (3, [])
    (by decide) rfl
  exact ⟨h.1, h.2.1, h.2.2 rfl⟩

/-- C7: a `should_render` query answers `false` and leaves the whole state
(registry and flag) unchanged whenever the `root_found` flag is already set
— regardless of the registry — and likewise whenever no registry entry
carries the queried scope id (a silent non-error result). -/
theorem claimC7 :
    ∀ (st : RouterState) (scope : ScopeId),
      (st.root_found = true → should_render st scope = (false, st)) ∧
      (find_slot st.slots scope = none → should_render st scope = (false, st)) := by
  intro st scope
  refine ⟨should_render_flag_true st scope, fun h => ?_⟩
  cases hrf : st.root_found with
  | true => exact should_render_flag_true st scope hrf
  | false =>
    rw [should_render_eval st scope hrf, claims_cycle, h]
    have hst : { st with root_found := false } = st := by
      cases st
      simp_all
    simp [hst]

/-- C7 witness: the short-circuit on a set flag and the unregistered-scope
case, each at a concrete state. -/
theorem claimC7_witness :
    should_render (RouterState.mk [(1, ['/', 'a'])] true ['/', 'a']) 1
        = (false, RouterState.mk [(1, ['/', 'a'])] true ['/', 'a']) ∧
    should_render (RouterState.mk [(1, ['/', 'a'])] false ['/', 'a']) 9
        = (false, RouterState.mk [(1, ['/', 'a'])] false ['/', 'a']) :=
  ⟨(claimC7 (RouterState.mk [(1, ['/', 'a'])] true ['/', 'a']) 1).1 rfl,
   (claimC7 (RouterState.mk [(1, ['/', 'a'])] false ['/', 'a']) 9).2 (by decide)⟩

/-- C10: frame condition of `should_render` — the resulting state is the input
state with the flag set when the query answers `true`, and the input state
unchanged (registry, path and flag alike) when it answers `false`; moreover a
`true` answer can only happen with the flag initially clear, so the flag is
never moved from `true` to `false` and the registry is never modified. -/
theorem claimC10 :
    ∀ (st : RouterState) (scope : ScopeId),
      (should_render st scope).2
          = (if (should_render st scope).1 = true
             then { st with root_found := true } else st) ∧
      ((should_render st scope).1 && st.root_found) = false := by
  intro st scope
  cases hrf : st.root_found with
  | true => rw [should_render_flag_true st scope hrf]; simp
  | false =>
    rw [should_render_eval st scope hrf]
    cases hc : claims_cycle st.slots st.path scope <;> simp

/-! ### Navigation-cycle lemmas and claim C1 -/

theorem run_queries_flag_true (qs : List ScopeId) (st : RouterState)
    (h : st.root_found = true) :
    run_queries st qs = (List.replicate qs.length false, st) := by
  induction qs with
  | nil => rfl
  | cons q qs ih =>
    rw [run_queries, should_render_flag_true st q h]
    simp only [ih, List.length_cons, List.replicate_succ]

theorem set_flag_false_eq (st : RouterState) (h : st.root_found = false) :
    { st with root_found := false } = st := by
  cases st
  simp_all

theorem run_queries_spec (qs : List ScopeId) (st : RouterState)
    (h : st.root_found = false) :
    (run_queries st qs).1.count true
        = (if qs.any (claims_cycle st.slots st.path) then 1 else 0) ∧
    (run_queries st qs).2
        = { st with root_found := qs.any (claims_cycle st.slots st.path) } := by
  induction qs with
  | nil =>
    refine ⟨rfl, ?_⟩
    simp only [run_queries, List.any_nil]
    exact (set_flag_false_eq st h).symm
  | cons q qs ih =>
    cases hc : claims_cycle st.slots st.path q with
    | false =>
      have h1 : should_render st q = (false, st) := by
        rw [should_render_eval st q h, hc]
        rfl
      simp only [run_queries, h1, List.any_cons, hc, Bool.false_or, List.count_cons]
      refine ⟨?_, ih.2⟩
      rw [ih.1]
      simp
    | true =>
      have h1 : should_render st q = (true, { st with root_found := true }) := by
        rw [should_render_eval st q h, hc]
        rfl
      simp only [run_queries, h1]
      rw [run_queries_flag_true qs { st with root_found := true } rfl]
      simp only [List.any_cons, hc, Bool.true_or, List.count_cons, List.count_replicate]
      constructor
      · simp
      · trivial

/-- C1: within one navigation cycle (flag initially clear), any sequence of
`should_render` queries yields at most one `true` answer; if some queried
scope's first registered entry matches the current path or is the empty
fallback pattern, exactly one query answers `true`; and the `root_found`
flag ends up set exactly when some query answered `true`. -/
theorem claimC1 :
    ∀ (st : RouterState) (qs : List ScopeId), st.root_found = false →
      (run_queries st qs).1.count true ≤ 1 ∧
      ((∃ s ∈ qs, claims_cycle st.slots st.path s = true) →
        (run_queries st qs).1.count true = 1) ∧
      ((run_queries st qs).2.root_found = true ↔ true ∈ (run_queries st qs).1) := by
  intro st qs h
  obtain ⟨hcount, hstate⟩ := run_queries_spec qs st h
  refine ⟨?_, ?_, ?_⟩
  · rw [hcount]
    split <;> omega
  · intro hex
    rw [hcount, if_pos (List.any_eq_true.2 (by simpa using hex))]
  · rw [hstate]
    have hmem : true ∈ (run_queries st qs).1 ↔ 0 < (run_queries st qs).1.count true :=
      (List.count_pos_iff).symm
    rw [hmem, hcount]
    cases hany : qs.any (claims_cycle st.slots st.path) <;> simp

/-- C1 witness: two scopes registered with the same matching pattern, both
queried in order — exactly the first query answers `true` and the flag ends
set. -/
theorem claimC1_witness :
    (run_queries
        (RouterState.mk [(1, "/a".toList), (2, "/a".toList)] false "/a".toList)
        [1, 2]).1.count true ≤ 1 ∧
    (run_queries
        (RouterState.mk [(1, "/a".toList), (2, "/a".toList)] false "/a".toList)
        [1, 2]).1.count true = 1 := by
  have h := claimC1
    (RouterState.mk [(1, "/a".toList), (2, "/a".toList)] false "/a".toList)
    [1, 2] rfl
  exact ⟨h.1, h.2.1 (by decide)⟩

/-! ### Listener lemmas and claim C3 -/

theorem apply_events_regen (l : List (ScopeId × RStr)) :
    ∀ st : RouterState,
      apply_events st (l.map (fun e => RouterEvent.regen e.1)) = st := by
  induction l with
  | nil => intro st; rfl
  | cons a t ih =>
    intro st
    rw [List.map_cons, apply_events, List.foldl_cons]
    exact ih st

/-- C3: the navigation-change handler's trace begins with the reset of the
`root_found` flag to `false`; what follows is exactly one re-render request
per registered entry, carrying that entry's scope id, in reverse registration
order (position `i` holds the scope of entry `length - 1 - i`, so the
last-registered entry is notified first); and after the whole trace runs the
flag is `false` and the registry and path are untouched — a winner flag from
the prior cycle never carries over. -/
theorem claimC3 :
    ∀ st : RouterState,
      (listener_events st.slots).head? = some (RouterEvent.setRootFound false) ∧
      (listener_events st.slots).tail.length = st.slots.length ∧
      (∀ i, ∀ h : i < st.slots.length,
        (listener_events st.slots).tail[i]?
          = some (RouterEvent.regen
              (st.slots.get ⟨st.slots.length - 1 - i, by omega⟩).1)) ∧
      (apply_events st (listener_events st.slots)).root_found = false ∧
      (apply_events st (listener_events st.slots)).slots = st.slots ∧
      (apply_events st (listener_events st.slots)).path = st.path := by
  intro st
  have htrace : apply_events st (listener_events st.slots)
      = { st with root_found := false } := by
    rw [listener_events, apply_events, List.foldl_cons]
    exact apply_events_regen st.slots.reverse { st with root_found := false }
  refine ⟨rfl, by simp [listener_events], ?_, by rw [htrace], by rw [htrace], by rw [htrace]⟩
  intro i h
  simp only [listener_events, List.tail_cons]
  rw [List.getElem?_map, List.getElem?_reverse (by simpa using h),
    List.getElem?_eq_getElem (by omega)]
  simp [List.get_eq_getElem]

/-- C3 witness: the trace characterisation applied at a concrete two-entry
registry — position 0 of the re-render requests names the last-registered
scope. -/
theorem claimC3_witness :
    (listener_events [(1, "/a".toList), (2, "/b".toList)]).tail[0]?
        = some (RouterEvent.regen 2) ∧
    (listener_events [(1, "/a".toList), (2, "/b".toList)]).head?
        = some (RouterEvent.setRootFound false) := by
  have h := claimC3
    (RouterState.mk [(1, "/a".toList), (2, "/b".toList)] true "/a".toList)
  exact ⟨h.2.2.1 0 (by decide), h.1⟩

end RouterSpec
